import Mathlib

/-
Verification of the drift detection and data quality engine.

The development embeds the two core modules, the drift detector and the
data quality checker, as executable Lean definitions over rational
numbers. Floating point values are idealized as rationals. Calls into
the statistical library (p-values, logarithm, square root) and runtime
exceptions of the library are modelled by an explicit environment: a
p-value function, a logarithm, a square root, and exception oracles
returning none when a call succeeds. The statistics the library
documents as exact finite computations (the two sample KS statistic,
the chi square statistic) are computed concretely.
-/

namespace DQ

/-- A cell of a tabular dataset: a numeric value, a text value, or the
missing marker NaN. Rationals stand in for floating point numbers. -/
inductive Value where
  | num (q : ℚ)
  | str (s : String)
  | missing
  deriving DecidableEq

/-- The dtype tag pandas attaches to a column: numeric or categorical. -/
inductive ColType where
  | numeric
  | categorical
  deriving DecidableEq

/-- One column of a DataFrame: its dtype and its cells in order. -/
structure Col where
  ctype : ColType
  values : List Value
  deriving DecidableEq

/-- A pandas DataFrame: named columns in order. -/
structure Frame where
  cols : List (String × Col)
  deriving DecidableEq

/-- Series.dropna on a numeric column: the numeric cells in order. -/
def toNums (vs : List Value) : List ℚ :=
  vs.filterMap (fun v => match v with | .num q => some q | _ => none)

/-- The non-missing cells of a column, in order (value_counts drops NaN). -/
def dropMissing (vs : List Value) : List Value :=
  vs.filter (fun v => v ≠ Value.missing)

/-- Series.value_counts: each distinct non-missing value with its count.
pandas orders the table by descending count; only the multiset of rows
matters here, so first-appearance order is used. -/
def valueCounts (vs : List Value) : List (Value × ℕ) :=
  (dropMissing vs).dedup.map (fun v => (v, (dropMissing vs).count v))

/-- pd.merge(ref_counts, target_counts, how=outer) followed by fillna(0):
one row per value of either table, carrying (reference count, target
count), an absent count becoming 0. -/
def outerMerge (r t : List (Value × ℕ)) : List (ℕ × ℕ) :=
  r.map (fun p => (p.2, (t.lookup p.1).getD 0)) ++
    (t.filter (fun p => r.lookup p.1 = none)).map (fun p => ((0 : ℕ), p.2))

/-- The merged count table the chi square test hands to the library:
reference (expected) count first, target (observed) count second. -/
def chiMerged (refVals targetVals : List Value) : List (ℕ × ℕ) :=
  outerMerge (valueCounts refVals) (valueCounts targetVals)

/-- Empirical CDF of a sample at x: the fraction of points at most x. -/
def ecdf (l : List ℚ) (x : ℚ) : ℚ :=
  ((l.filter (fun v => v ≤ x)).length : ℚ) / (l.length : ℚ)

/-- The two sample Kolmogorov Smirnov statistic stats.ks_2samp computes:
the largest absolute difference of the two empirical CDFs, attained at a
point of either sample. -/
def ksStat (a b : List ℚ) : ℚ :=
  ((a ++ b).map (fun x => |ecdf a x - ecdf b x|)).foldr max 0

/-- The chi square goodness of fit statistic stats.chisquare computes on
rows of (expected, observed) counts. -/
def chiStat (rows : List (ℕ × ℕ)) : ℚ :=
  (rows.map (fun p => ((p.2 : ℚ) - (p.1 : ℚ)) ^ 2 / (p.1 : ℚ))).sum

/-- A histogram breakpoint after the outer edges of np.linspace are
replaced: minus infinity, a finite edge, or plus infinity. -/
inductive BP where
  | ninf
  | fin (q : ℚ)
  | pinf
  deriving DecidableEq

/-- Whether x lies at or above the breakpoint taken as a lower edge. -/
def BP.atOrAbove : BP → ℚ → Bool
  | .ninf, _ => true
  | .fin a, x => a ≤ x
  | .pinf, _ => false

/-- Whether x lies strictly below the breakpoint taken as an upper edge. -/
def BP.strictlyBelow : BP → ℚ → Bool
  | .ninf, _ => false
  | .fin b, x => x < b
  | .pinf, _ => true

/-- Whether x lies at or below the breakpoint taken as a closed upper
edge (the final bin of np.histogram is closed on both sides). -/
def BP.atOrBelow : BP → ℚ → Bool
  | .ninf, _ => false
  | .fin b, x => x ≤ b
  | .pinf, _ => true

/-- np.histogram bin counts over a breakpoint list: every bin is closed
below and open above, except the last bin which is closed on both sides. -/
def histCounts (l : List ℚ) : List BP → List ℕ
  | [a, b] => [(l.filter (fun x => a.atOrAbove x && b.atOrBelow x)).length]
  | a :: b :: rest =>
      (l.filter (fun x => a.atOrAbove x && b.strictlyBelow x)).length
        :: histCounts l (b :: rest)
  | _ => []

/-- np.linspace(mn, mx, 11) with the first breakpoint set to minus
infinity and the last to plus infinity. -/
def breakpoints (mn mx : ℚ) : List BP :=
  BP.ninf :: ((List.range 9).map (fun k => BP.fin (mn + (mx - mn) * ((k : ℚ) + 1) / 10))) ++ [BP.pinf]

/-- Series.min (0 on an empty sample, where pandas yields NaN; no claim
depends on that case). -/
def listMin (l : List ℚ) : ℚ := (l.min?).getD 0

/-- Series.max (0 on an empty sample, as for listMin). -/
def listMax (l : List ℚ) : ℚ := (l.max?).getD 0

/-- Series.mean: sum over length (0 on an empty sample, where pandas
yields NaN; no claim depends on that case). -/
def listMean (l : List ℚ) : ℚ := l.sum / (l.length : ℚ)

/-- Series.std with ddof 1, through the supplied square root function. -/
def listStd (sqrt : ℚ → ℚ) (l : List ℚ) : ℚ :=
  sqrt ((l.map (fun x => (x - listMean l) ^ 2)).sum / ((l.length : ℚ) - 1))

/-- The method calculate_psi of DriftDetector, translated: 10 bins from
the reference min and max with infinite outer edges, histograms
normalized to fractions, 0.0001 added to every bin fraction of both
distributions, then the PSI sum, with the supplied logarithm. -/
def calculate_psi (lg : ℚ → ℚ) (ref_data target_data : List ℚ) : ℚ :=
  let bps := breakpoints (listMin ref_data) (listMax ref_data)
  let ref_dist := (histCounts ref_data bps).map
    (fun c => (c : ℚ) / (ref_data.length : ℚ) + 1 / 10000)
  let target_dist := (histCounts target_data bps).map
    (fun c => (c : ℚ) / (target_data.length : ℚ) + 1 / 10000)
  ((target_dist.zip ref_dist).map (fun p => (p.1 - p.2) * lg (p.1 / p.2))).sum

/-- The statistical library and runtime seen by the drift detector: the
p-values scipy returns, possible exceptions of the two test calls (none
means success), the natural logarithm, the square root, and a possible
failure of the top level try block of detect_drift. -/
structure DriftEnv where
  ksPval : List ℚ → List ℚ → ℚ
  ksExn : List ℚ → List ℚ → Option String
  chiPval : List (ℕ × ℕ) → ℚ
  chiExn : List (ℕ × ℕ) → Option String
  log : ℚ → ℚ
  sqrt : ℚ → ℚ
  topExn : Option String

/-- A per-column result dictionary: a successful KS test row, a
successful chi square row, or the error row built by the except branch
of either test. -/
inductive ColResult where
  | ksOk (has_drift : Bool)
      (drift_score p_value psi_score reference_mean target_mean reference_std target_std : ℚ)
  | chiOk (has_drift : Bool) (drift_score p_value : ℚ)
      (reference_unique_values target_unique_values : ℕ)
  | err (test_type msg : String)

/-- The has_drift entry of a per-column result (False in the error row). -/
def ColResult.has_drift : ColResult → Bool
  | .ksOk h _ _ _ _ _ _ _ => h
  | .chiOk h _ _ _ _ => h
  | .err _ _ => false

/-- The drift_score entry of a per-column result (0.0 in the error row). -/
def ColResult.drift_score : ColResult → ℚ
  | .ksOk _ s _ _ _ _ _ _ => s
  | .chiOk _ s _ _ _ => s
  | .err _ _ => 0

/-- The p_value entry of a per-column result (absent from the error row). -/
def ColResult.pValue : ColResult → Option ℚ
  | .ksOk _ _ p _ _ _ _ _ => some p
  | .chiOk _ _ p _ _ => some p
  | .err _ _ => none

/-- The error entry of a per-column result (present only in the error row). -/
def ColResult.errNote : ColResult → Option String
  | .err _ e => some e
  | _ => none

/-- The method ks_test of DriftDetector, translated: drop missing
values, call ks_2samp (exact statistic, p-value from the environment,
or an exception), flag drift when the p-value is below the threshold,
attach the PSI and the sample moments; the except branch yields the
error row. -/
def ks_test (env : DriftEnv) (threshold : ℚ) (refVals targetVals : List Value) : ColResult :=
  let ref_data := toNums refVals
  let target_data := toNums targetVals
  match env.ksExn ref_data target_data with
  | some e => .err "KS Test" e
  | none =>
    let ks_statistic := ksStat ref_data target_data
    let p_value := env.ksPval ref_data target_data
    let has_drift : Bool := p_value < threshold
    let psi_score := calculate_psi env.log ref_data target_data
    .ksOk has_drift ks_statistic p_value psi_score
      (listMean ref_data) (listMean target_data)
      (listStd env.sqrt ref_data) (listStd env.sqrt target_data)

/-- The method chi_square_test of DriftDetector, translated: value
counts of both columns, outer merge with fillna(0), chisquare of the
target (observed) counts against the reference (expected) counts; the
except branch yields the error row. -/
def chi_square_test (env : DriftEnv) (threshold : ℚ) (refVals targetVals : List Value) : ColResult :=
  let ref_counts := valueCounts refVals
  let target_counts := valueCounts targetVals
  let merged := outerMerge ref_counts target_counts
  match env.chiExn merged with
  | some e => .err "Chi-Square Test" e
  | none =>
    let chi2_statistic := chiStat merged
    let p_value := env.chiPval merged
    let has_drift : Bool := p_value < threshold
    .chiOk has_drift chi2_statistic p_value ref_counts.length target_counts.length

/-- The column names of a frame, in order. -/
def Frame.columns (f : Frame) : List String := f.cols.map Prod.fst

/-- Column lookup by name: the first matching column (only applied to
names known to be present). -/
def Frame.getCol (f : Frame) (c : String) : Col :=
  (f.cols.lookup c).getD ⟨ColType.categorical, []⟩

/-- list(set(reference_df.columns) intersected with set(target_df.columns)):
the distinct column names present in both frames. -/
def commonColumns (ref target : Frame) : List String :=
  ref.columns.dedup.filter (fun c => c ∈ target.columns)

/-- The test_results summary block: the normal form, or the error form
built by the top level except branch of detect_drift. -/
inductive TestResults where
  | ok (total_columns_tested columns_with_drift : ℕ) (threshold : ℚ)
  | err (msg : String)

/-- The total_columns_tested entry (0 in the error form). -/
def TestResults.totalTested : TestResults → ℕ
  | .ok n _ _ => n
  | .err _ => 0

/-- The columns_with_drift entry (0 in the error form). -/
def TestResults.columnsWithDrift : TestResults → ℕ
  | .ok _ k _ => k
  | .err _ => 0

/-- The dictionary detect_drift returns. -/
structure DriftReport where
  drift_detected : Bool
  overall_drift_score : ℚ
  column_drift : List (String × ColResult)
  test_results : TestResults

/-- The method detect_drift of DriftDetector, translated: for every
common column run the KS test when the reference dtype is numeric and
the chi square test otherwise, average the per-column drift scores (0.0
with no common columns), compare the average with the threshold; the
top level except branch yields the degraded report. -/
def detect_drift (env : DriftEnv) (threshold : ℚ) (reference_df target_df : Frame) : DriftReport :=
  match env.topExn with
  | some e =>
    { drift_detected := false, overall_drift_score := 0,
      column_drift := [], test_results := .err e }
  | none =>
    let common_cols := commonColumns reference_df target_df
    let column_drift := common_cols.map (fun c =>
      (c, if (reference_df.getCol c).ctype = ColType.numeric then
            ks_test env threshold (reference_df.getCol c).values (target_df.getCol c).values
          else
            chi_square_test env threshold (reference_df.getCol c).values (target_df.getCol c).values))
    let drift_scores := column_drift.map (fun p => p.2.drift_score)
    let overall_drift_score :=
      if drift_scores.isEmpty then 0 else drift_scores.sum / (drift_scores.length : ℚ)
    let drift_detected : Bool := overall_drift_score > threshold
    { drift_detected := drift_detected,
      overall_drift_score := overall_drift_score,
      column_drift := column_drift,
      test_results := .ok common_cols.length
        ((column_drift.filter (fun p => p.2.has_drift)).length) threshold }

/-- Round to the nearest integer, ties to the even integer, as the
builtin round of Python behaves. -/
def roundHalfEven (y : ℚ) : ℤ :=
  if Int.fract y < 1 / 2 then ⌊y⌋
  else if Int.fract y > 1 / 2 then ⌊y⌋ + 1
  else if ⌊y⌋ % 2 = 0 then ⌊y⌋ else ⌊y⌋ + 1

/-- round(x, 2) of Python: half-to-even rounding at 2 decimal places. -/
def pyRound2 (x : ℚ) : ℚ := ((roundHalfEven (x * 100) : ℤ) : ℚ) / 100

/-- len(df): the row count of a frame, the uniform length of its
columns (frames built from CSV sources have columns of equal length). -/
def Frame.nrows (f : Frame) : ℕ :=
  (f.cols.head?.map (fun c => c.2.values.length)).getD 0

/-- The rows of a frame: row i holds the cell of each column at index i. -/
def Frame.rows (f : Frame) : List (List Value) :=
  (List.range f.nrows).map (fun i => f.cols.map (fun c => c.2.values.getD i Value.missing))

/-- The per-column entry of the missing value report. -/
structure MissingColInfo where
  count : ℕ
  percentage : ℚ
  deriving DecidableEq

/-- The dictionary check_missing_values returns: the normal form, or the
empty mapping built by the except branch. -/
inductive MissingReport where
  | ok (total_rows : ℕ) (columns : List (String × MissingColInfo))
  | empty
  deriving DecidableEq

/-- The dictionary check_duplicates returns: the normal form, or the
empty mapping built by the except branch. -/
inductive DupReport where
  | ok (total_rows unique_rows duplicate_count : ℕ) (duplicate_percentage : ℚ)
  | empty
  deriving DecidableEq

/-- The per-column entry of the outlier report. -/
structure OutlierInfo where
  count : ℕ
  percentage : ℚ
  lower_bound : ℚ
  upper_bound : ℚ
  deriving DecidableEq

/-- The method check_missing_values of DataQualityChecker, translated:
per column the count of missing cells and its percentage of the row
count (0 for an empty frame), rounded to 2 decimals; a computation
failure (the exn argument, modelling the except branch) yields the
empty mapping. -/
def check_missing_values (exn : Option String) (df : Frame) : MissingReport :=
  match exn with
  | some _ => .empty
  | none =>
    let total_rows := df.nrows
    .ok total_rows (df.cols.map (fun c =>
      let missing_count := (c.2.values.filter (fun v => v = Value.missing)).length
      (c.1, { count := missing_count,
              percentage := pyRound2
                (if 0 < total_rows then (missing_count : ℚ) / (total_rows : ℚ) * 100 else 0) })))

/-- The method check_duplicates of DataQualityChecker, translated:
distinct full rows via drop_duplicates, duplicate count and percentage
(0 for an empty frame); a computation failure yields the empty mapping. -/
def check_duplicates (exn : Option String) (df : Frame) : DupReport :=
  match exn with
  | some _ => .empty
  | none =>
    let total_rows := df.nrows
    let unique_rows := df.rows.dedup.length
    let duplicate_count := total_rows - unique_rows
    .ok total_rows unique_rows duplicate_count
      (if 0 < total_rows then pyRound2 ((duplicate_count : ℚ) / (total_rows : ℚ) * 100) else 0)

/-- Series.quantile with linear interpolation, on an already sorted
sample: index p times (n - 1), floor it, interpolate to the next entry. -/
def quantileSorted (l : List ℚ) (p : ℚ) : ℚ :=
  let h : ℚ := p * ((l.length : ℚ) - 1)
  let i : ℕ := (⌊h⌋).toNat
  let a := l.getD i 0
  let b := l.getD (i + 1) a
  a + (h - (i : ℚ)) * (b - a)

/-- Series.quantile: sort the sample, then interpolate linearly. -/
def quantile (l : List ℚ) (p : ℚ) : ℚ :=
  quantileSorted (l.insertionSort (· ≤ ·)) p

/-- The per-column body of detect_outliers on the non-missing sample of
a numeric column: quartiles, IQR bounds, strict outlier count, and the
percentage among the non-missing cells. -/
def outlierEntry (col_data : List ℚ) : OutlierInfo :=
  let q1 := quantile col_data (1 / 4)
  let q3 := quantile col_data (3 / 4)
  let iqr := q3 - q1
  let lower_bound := q1 - 3 / 2 * iqr
  let upper_bound := q3 + 3 / 2 * iqr
  let outlier_count := (col_data.filter (fun x => x < lower_bound ∨ x > upper_bound)).length
  { count := outlier_count,
    percentage := pyRound2 ((outlier_count : ℚ) / (col_data.length : ℚ) * 100),
    lower_bound := lower_bound, upper_bound := upper_bound }

/-- The method detect_outliers of DataQualityChecker, translated: for
every numeric column with at least one non-missing cell, the IQR bounds
and the count of cells strictly outside them; columns with no remaining
cell are skipped; a computation failure yields the empty mapping. -/
def detect_outliers (exn : Option String) (df : Frame) : List (String × OutlierInfo) :=
  match exn with
  | some _ => []
  | none =>
    (df.cols.filter (fun c => c.2.ctype = ColType.numeric)).filterMap (fun c =>
      let col_data := toNums c.2.values
      if 0 < col_data.length then some (c.1, outlierEntry col_data) else none)

/-- The label str(dtype) renders for a column dtype. -/
def ColType.label : ColType → String
  | .numeric => "float64"
  | .categorical => "object"

/-- The method check_data_types of DataQualityChecker, translated. -/
def check_data_types (exn : Option String) (df : Frame) : List (String × String) :=
  match exn with
  | some _ => []
  | none => df.cols.map (fun c => (c.1, ColType.label c.2.ctype))

/-- One row of the describe style numeric summary. -/
structure NumSummary where
  count : ℕ
  mean : ℚ
  std : ℚ
  min : ℚ
  q25 : ℚ
  q50 : ℚ
  q75 : ℚ
  max : ℚ

/-- The dictionary get_statistics returns: the normal form, or the
empty mapping built by the except branch. -/
inductive StatsReport where
  | ok (numeric_summary : List (String × NumSummary))
      (categorical_columns numeric_columns : List String)
      (categorical_summary : List (String × List (Value × ℕ)))
  | empty

/-- Series.value_counts().head(10): the value counts ordered by
descending count, truncated to 10 rows. -/
def topCounts (vs : List Value) : List (Value × ℕ) :=
  ((valueCounts vs).insertionSort (fun p q => q.2 ≤ p.2)).take 10

/-- The method get_statistics of DataQualityChecker, translated: a
describe style summary per numeric column, the two column name lists,
and the top value counts of the first five categorical columns; a
computation failure yields the empty mapping. -/
def get_statistics (sqrt : ℚ → ℚ) (exn : Option String) (df : Frame) : StatsReport :=
  match exn with
  | some _ => .empty
  | none =>
    let numericCols := df.cols.filter (fun c => c.2.ctype = ColType.numeric)
    let categoricalCols := df.cols.filter (fun c => c.2.ctype = ColType.categorical)
    .ok
      (numericCols.map (fun c =>
        let d := toNums c.2.values
        (c.1, { count := d.length, mean := listMean d, std := listStd sqrt d,
                min := listMin d, q25 := quantile d (1 / 4), q50 := quantile d (1 / 2),
                q75 := quantile d (3 / 4), max := listMax d })))
      (categoricalCols.map Prod.fst) (numericCols.map Prod.fst)
      ((categoricalCols.take 5).map (fun c => (c.1, topCounts c.2.values)))


/-- A benign library environment for concrete evaluations: p-values of
one half, no exceptions, zero logarithm and square root. -/
def env0 : DriftEnv :=
  { ksPval := fun _ _ => 1 / 2, ksExn := fun _ _ => none,
    chiPval := fun _ => 1 / 2, chiExn := fun _ => none,
    log := fun _ => 0, sqrt := fun _ => 0, topExn := none }

/-- The benign environment with the chi square library call failing. -/
def envChiFail : DriftEnv :=
  { env0 with chiExn := fun _ => some "boom" }

/-- A tiny frame with one numeric column. -/
def fNum : Frame := ⟨[("x", ⟨ColType.numeric, [.num 1, .num 2, .num 3]⟩)]⟩

/-- A reference frame with a categorical and a numeric column. -/
def fRef : Frame :=
  ⟨[("cat", ⟨ColType.categorical, [.str "A"]⟩), ("x", ⟨ColType.numeric, [.num 1]⟩)]⟩

/-- A target frame with the same columns, the categorical one holding a
value absent from the reference column. -/
def fTgt : Frame :=
  ⟨[("cat", ⟨ColType.categorical, [.str "A", .str "B"]⟩), ("x", ⟨ColType.numeric, [.num 1]⟩)]⟩

/-- The outlier scenario frame of the specification: one numeric column
with values 1, 2, 3, 4, 5 and 100. -/
def fOut : Frame :=
  ⟨[("x", ⟨ColType.numeric, [.num 1, .num 2, .num 3, .num 4, .num 5, .num 100]⟩)]⟩


/-- Modelled on the wording of the specification: the fraction of the
sample falling in bin i of the 10 bins built from the reference min and
max, the outer edges infinite, with the 0.0001 constant added. -/
def specBinFrac (mn mx : ℚ) (l : List ℚ) (i : ℕ) : ℚ :=
  ((l.filter (fun x =>
      (i = 0 ∨ mn + (mx - mn) * (i : ℚ) / 10 ≤ x) ∧
      (i = 9 ∨ x < mn + (mx - mn) * ((i : ℚ) + 1) / 10))).length : ℚ)
    / (l.length : ℚ) + 1 / 10000

/-- Modelled on the wording of the specification: PSI as the sum over
the 10 bins of (target fraction minus reference fraction) times the
logarithm of their ratio. -/
def psiSpec (lg : ℚ → ℚ) (ref_data target_data : List ℚ) : ℚ :=
  let mn := listMin ref_data
  let mx := listMax ref_data
  ∑ i ∈ Finset.range 10,
    (specBinFrac mn mx target_data i - specBinFrac mn mx ref_data i)
      * lg (specBinFrac mn mx target_data i / specBinFrac mn mx ref_data i)

end DQ

namespace DQ

section LookupHelpers
variable {α : Type*} {β : Type*} [DecidableEq α]

lemma lookup_map_pair {l : List α} (hl : l.Nodup) (g : α → β) {k : α} (hk : k ∈ l) :
    (l.map (fun v => (v, g v))).lookup k = some (g k) := by
  induction l with
  | nil => cases hk
  | cons a tl ih =>
    rcases List.mem_cons.mp hk with h | h
    · subst h
      simp [List.lookup]
    · have hne : k ≠ a := by
        rintro rfl
        exact (List.nodup_cons.mp hl).1 h
      simp only [List.map_cons, List.lookup, beq_eq_false_iff_ne.mpr hne]
      exact ih (List.nodup_cons.mp hl).2 h

lemma lookup_eq_none_iff (l : List (α × β)) (k : α) :
    l.lookup k = none ↔ k ∉ l.map Prod.fst := by
  induction l with
  | nil => simp
  | cons a tl ih =>
    by_cases h : k = a.1
    · subst h
      simp [List.lookup]
    · simp only [List.lookup, List.map_cons, List.mem_cons, beq_eq_false_iff_ne.mpr h]
      simp [ih, h]

lemma lookup_mem_of_nodup_keys {l : List (α × β)} (hl : (l.map Prod.fst).Nodup)
    {p : α × β} (hp : p ∈ l) : l.lookup p.1 = some p.2 := by
  induction l with
  | nil => cases hp
  | cons a tl ih =>
    rw [List.map_cons] at hl
    rcases List.mem_cons.mp hp with h | h
    · subst h
      simp [List.lookup]
    · have hne : p.1 ≠ a.1 := by
        intro hEq
        exact (List.nodup_cons.mp hl).1 (hEq ▸ (List.mem_map.mpr ⟨p, h, rfl⟩))
      simp only [List.lookup, beq_eq_false_iff_ne.mpr hne]
      exact ih (List.nodup_cons.mp hl).2 h

end LookupHelpers

lemma foldr_max_zero (l : List ℚ) (h : ∀ x ∈ l, x = 0) : l.foldr max 0 = 0 := by
  induction l with
  | nil => rfl
  | cons a tl ih =>
    have ha : a = 0 := h a (List.mem_cons_self a tl)
    have : tl.foldr max 0 = 0 := ih (fun x hx => h x (List.mem_cons_of_mem a hx))
    simp [ha, this]

lemma ksStat_self (a : List ℚ) : ksStat a a = 0 := by
  refine foldr_max_zero _ ?_
  intro x hx
  rcases List.mem_map.mp hx with ⟨y, _, rfl⟩
  simp

lemma valueCounts_keys (vs : List Value) :
    (valueCounts vs).map Prod.fst = (dropMissing vs).dedup := by
  unfold valueCounts
  rw [List.map_map]
  have h : (Prod.fst ∘ fun v => (v, (dropMissing vs).count v)) = id := rfl
  rw [h, List.map_id]

lemma valueCounts_keys_nodup (vs : List Value) :
    ((valueCounts vs).map Prod.fst).Nodup := by
  rw [valueCounts_keys]
  exact List.nodup_dedup _

lemma valueCounts_count_pos (vs : List Value) {p : Value × ℕ} (hp : p ∈ valueCounts vs) :
    0 < p.2 := by
  rcases List.mem_map.mp hp with ⟨v, hv, rfl⟩
  exact List.count_pos_iff.mpr (List.mem_dedup.mp hv)

lemma outerMerge_self (r : List (Value × ℕ)) (h : (r.map Prod.fst).Nodup) :
    outerMerge r r = r.map (fun p => (p.2, p.2)) := by
  unfold outerMerge
  have h2 : r.filter (fun p => r.lookup p.1 = none) = [] := by
    refine List.filter_eq_nil_iff.mpr ?_
    intro p hp
    simp [lookup_mem_of_nodup_keys h hp]
  rw [h2]
  simp only [List.map_nil, List.append_nil]
  refine List.map_congr_left ?_
  intro p hp
  simp [lookup_mem_of_nodup_keys h hp]

lemma chiStat_diag (r : List (Value × ℕ)) :
    chiStat (r.map (fun p => (p.2, p.2))) = 0 := by
  unfold chiStat
  rw [List.map_map]
  refine List.sum_eq_zero ?_
  intro x hx
  rcases List.mem_map.mp hx with ⟨p, _, rfl⟩
  simp

lemma ks_test_self_score (env : DriftEnv) (t : ℚ) (vs : List Value) :
    (ks_test env t vs vs).drift_score = 0 := by
  unfold ks_test
  cases h : env.ksExn (toNums vs) (toNums vs) with
  | none => simp [h, ColResult.drift_score, ksStat_self]
  | some e => simp [h, ColResult.drift_score]

lemma chi_square_test_self_score (env : DriftEnv) (t : ℚ) (vs : List Value) :
    (chi_square_test env t vs vs).drift_score = 0 := by
  have hm : outerMerge (valueCounts vs) (valueCounts vs)
      = (valueCounts vs).map (fun p => (p.2, p.2)) :=
    outerMerge_self _ (valueCounts_keys_nodup vs)
  simp only [chi_square_test, hm]
  cases h : env.chiExn ((valueCounts vs).map (fun p => (p.2, p.2))) with
  | none => simp [h, ColResult.drift_score, chiStat_diag]
  | some e => simp [h, ColResult.drift_score]

lemma detect_drift_keys (env : DriftEnv) (t : ℚ) (r g : Frame) (h : env.topExn = none) :
    (detect_drift env t r g).column_drift.map Prod.fst = commonColumns r g := by
  simp only [detect_drift, h, List.map_map]
  have hc : (Prod.fst ∘ fun c =>
      (c, if (r.getCol c).ctype = ColType.numeric then
            ks_test env t (r.getCol c).values (g.getCol c).values
          else chi_square_test env t (r.getCol c).values (g.getCol c).values)) = id := rfl
  rw [hc, List.map_id]

end DQ

namespace DQ

/-- C6: for every dataset D compared with itself, detect_drift yields an
overall drift score of 0 and no drift detected, for every significance
threshold at least 0 — under any library environment, since the KS and
chi square statistics vanish on identical data and failed columns score
0.0 as well. -/
theorem C6_self_drift (env : DriftEnv) (t : ℚ) (D : Frame) (ht : 0 ≤ t) :
    (detect_drift env t D D).overall_drift_score = 0 ∧
    (detect_drift env t D D).drift_detected = false := by
  cases h : env.topExn with
  | some e => constructor <;> simp [detect_drift, h]
  | none =>
    have key : ∀ x ∈ ((commonColumns D D).map (fun c =>
        (c, if (D.getCol c).ctype = ColType.numeric then
              ks_test env t (D.getCol c).values (D.getCol c).values
            else chi_square_test env t (D.getCol c).values (D.getCol c).values))).map
          (fun p => p.2.drift_score), x = 0 := by
      intro x hx
      rcases List.mem_map.mp hx with ⟨p, hp, rfl⟩
      rcases List.mem_map.mp hp with ⟨c, _, rfl⟩
      by_cases hnum : (D.getCol c).ctype = ColType.numeric
      · simp [hnum, ks_test_self_score]
      · simp [hnum, chi_square_test_self_score]
    have hsum := List.sum_eq_zero key
    have hov : (detect_drift env t D D).overall_drift_score = 0 := by
      simp only [detect_drift, h]
      split
      · rfl
      · rw [hsum, zero_div]
    refine ⟨hov, ?_⟩
    have hdet : (detect_drift env t D D).drift_detected
        = decide (t < (detect_drift env t D D).overall_drift_score) := by
      simp only [detect_drift, h]
    rw [hdet, hov]
    simp [not_lt.mpr ht]

end DQ

namespace DQ

/-- C1: when the top level try block does not fail, the overall drift
score is the arithmetic mean of the per-column drift scores recorded in
column_drift, it is 0.0 when the two frames share no common column, and
drift_detected holds exactly when the overall drift score exceeds the
threshold. -/
theorem C1_overall_mean (env : DriftEnv) (t : ℚ) (r g : Frame) (h : env.topExn = none) :
    ((detect_drift env t r g).column_drift ≠ [] →
      (detect_drift env t r g).overall_drift_score =
        ((detect_drift env t r g).column_drift.map (fun p => p.2.drift_score)).sum
          / (((detect_drift env t r g).column_drift.length : ℚ))) ∧
    (commonColumns r g = [] → (detect_drift env t r g).overall_drift_score = 0) ∧
    ((detect_drift env t r g).drift_detected = true ↔
      t < (detect_drift env t r g).overall_drift_score) := by
  refine ⟨?_, ?_, ?_⟩
  · intro hne
    simp only [detect_drift, h] at hne ⊢
    rw [List.length_map]
    split
    · rename_i hE
      rw [List.isEmpty_iff, List.map_eq_nil_iff] at hE
      exact absurd hE hne
    · rw [List.length_map]
  · intro hc
    simp only [detect_drift, h, hc]
    rfl
  · simp only [detect_drift, h]
    exact decide_eq_true_iff

/-- C10: when the top level try block does not fail, column_drift has
exactly one entry per common column (the common column list has no
duplicates), total_columns_tested equals the number of common columns,
and columns_with_drift never exceeds total_columns_tested. -/
theorem C10_report_shape (env : DriftEnv) (t : ℚ) (r g : Frame) (h : env.topExn = none) :
    (detect_drift env t r g).column_drift.map Prod.fst = commonColumns r g ∧
    (commonColumns r g).Nodup ∧
    (detect_drift env t r g).test_results.totalTested = (commonColumns r g).length ∧
    (detect_drift env t r g).test_results.columnsWithDrift ≤
      (detect_drift env t r g).test_results.totalTested := by
  refine ⟨detect_drift_keys env t r g h, (List.nodup_dedup _).filter _, ?_, ?_⟩
  · simp only [detect_drift, h, TestResults.totalTested]
  · simp only [detect_drift, h, TestResults.totalTested, TestResults.columnsWithDrift]
    refine le_trans (List.length_filter_le _ _) ?_
    rw [List.length_map]

end DQ

namespace DQ

/-- C4: when an individual column test fails (the library call raises),
detect_drift records for that column a result with has_drift false,
drift_score 0.0 and an embedded error note, and still records one result
for every common column. -/
theorem C4_column_failure (env : DriftEnv) (t : ℚ) (r g : Frame) (c e : String)
    (h : env.topExn = none) (hc : c ∈ commonColumns r g)
    (hfail :
      ((r.getCol c).ctype = ColType.numeric ∧
        env.ksExn (toNums (r.getCol c).values) (toNums (g.getCol c).values) = some e) ∨
      ((r.getCol c).ctype ≠ ColType.numeric ∧
        env.chiExn (chiMerged (r.getCol c).values (g.getCol c).values) = some e)) :
    (∃ res, (detect_drift env t r g).column_drift.lookup c = some res ∧
      res.has_drift = false ∧ res.drift_score = 0 ∧ res.errNote = some e) ∧
    (detect_drift env t r g).column_drift.map Prod.fst = commonColumns r g := by
  refine ⟨?_, detect_drift_keys env t r g h⟩
  have hnodup : (commonColumns r g).Nodup := (List.nodup_dedup _).filter _
  have hlook : (detect_drift env t r g).column_drift.lookup c =
      some (if (r.getCol c).ctype = ColType.numeric then
              ks_test env t (r.getCol c).values (g.getCol c).values
            else chi_square_test env t (r.getCol c).values (g.getCol c).values) := by
    simp only [detect_drift, h]
    exact lookup_map_pair hnodup _ hc
  rcases hfail with ⟨hnum, hexn⟩ | ⟨hnum, hexn⟩
  · refine ⟨ColResult.err "KS Test" e, ?_, rfl, rfl, rfl⟩
    rw [hlook, if_pos hnum]
    simp only [ks_test, hexn]
  · refine ⟨ColResult.err "Chi-Square Test" e, ?_, rfl, rfl, rfl⟩
    rw [hlook, if_neg hnum]
    simp only [chi_square_test]
    rw [show outerMerge (valueCounts (r.getCol c).values) (valueCounts (g.getCol c).values)
          = chiMerged (r.getCol c).values (g.getCol c).values from rfl, hexn]

/-- C2: when the library returns p-values in the unit interval, every
per-column test that completes without failure records a p-value in
the unit interval and flags drift exactly when that p-value is strictly
below the threshold. -/
theorem C2_pvalue_flag (env : DriftEnv) (t : ℚ) (refVals targetVals : List Value)
    (hks : ∀ a b, 0 ≤ env.ksPval a b ∧ env.ksPval a b ≤ 1)
    (hchi : ∀ m, 0 ≤ env.chiPval m ∧ env.chiPval m ≤ 1) :
    (∀ p, (ks_test env t refVals targetVals).pValue = some p →
      0 ≤ p ∧ p ≤ 1 ∧ ((ks_test env t refVals targetVals).has_drift = true ↔ p < t)) ∧
    (∀ p, (chi_square_test env t refVals targetVals).pValue = some p →
      0 ≤ p ∧ p ≤ 1 ∧ ((chi_square_test env t refVals targetVals).has_drift = true ↔ p < t)) := by
  constructor
  · intro p hp
    cases hE : env.ksExn (toNums refVals) (toNums targetVals) with
    | some e => exact absurd hp (by simp only [ks_test, hE, ColResult.pValue]; simp)
    | none =>
      simp only [ks_test, hE, ColResult.pValue, Option.some.injEq] at hp
      subst hp
      exact ⟨(hks _ _).1, (hks _ _).2, by
        simp only [ks_test, hE, ColResult.has_drift]
        exact decide_eq_true_iff⟩
  · intro p hp
    cases hE : env.chiExn (outerMerge (valueCounts refVals) (valueCounts targetVals)) with
    | some e => exact absurd hp (by simp only [chi_square_test, hE, ColResult.pValue]; simp)
    | none =>
      simp only [chi_square_test, hE, ColResult.pValue, Option.some.injEq] at hp
      subst hp
      exact ⟨(hchi _).1, (hchi _).2, by
        simp only [chi_square_test, hE, ColResult.has_drift]
        exact decide_eq_true_iff⟩

end DQ

namespace DQ

/-- Witness for C1 at a concrete environment and concrete frames. -/
theorem C1_overall_mean_witness :
    ((detect_drift env0 0 fNum fNum).column_drift ≠ [] →
      (detect_drift env0 0 fNum fNum).overall_drift_score =
        ((detect_drift env0 0 fNum fNum).column_drift.map (fun p => p.2.drift_score)).sum
          / (((detect_drift env0 0 fNum fNum).column_drift.length : ℚ))) ∧
    (commonColumns fNum fNum = [] → (detect_drift env0 0 fNum fNum).overall_drift_score = 0) ∧
    ((detect_drift env0 0 fNum fNum).drift_detected = true ↔
      (0 : ℚ) < (detect_drift env0 0 fNum fNum).overall_drift_score) :=
  C1_overall_mean env0 0 fNum fNum rfl

/-- Witness for C2 at a concrete environment with p-values one half. -/
theorem C2_pvalue_flag_witness :
    (∀ p, (ks_test env0 1 [Value.num 1] [Value.num 2]).pValue = some p →
      0 ≤ p ∧ p ≤ 1 ∧
        ((ks_test env0 1 [Value.num 1] [Value.num 2]).has_drift = true ↔ p < 1)) ∧
    (∀ p, (chi_square_test env0 1 [Value.num 1] [Value.num 2]).pValue = some p →
      0 ≤ p ∧ p ≤ 1 ∧
        ((chi_square_test env0 1 [Value.num 1] [Value.num 2]).has_drift = true ↔ p < 1)) :=
  C2_pvalue_flag env0 1 [Value.num 1] [Value.num 2]
    (fun _ _ => by constructor <;> norm_num [env0])
    (fun _ => by constructor <;> norm_num [env0])

/-- Witness for C4: the chi square call fails on the categorical column
of two concrete frames; the recorded result is the error row and every
common column still gets an entry. -/
theorem C4_column_failure_witness :
    (∃ res, (detect_drift envChiFail 0 fRef fTgt).column_drift.lookup "cat" = some res ∧
      res.has_drift = false ∧ res.drift_score = 0 ∧ res.errNote = some "boom") ∧
    (detect_drift envChiFail 0 fRef fTgt).column_drift.map Prod.fst = commonColumns fRef fTgt :=
  C4_column_failure envChiFail 0 fRef fTgt "cat" "boom" rfl (by decide)
    (Or.inr ⟨by decide, rfl⟩)

/-- Witness for C6 at a concrete frame and threshold 0. -/
theorem C6_self_drift_witness :
    (detect_drift env0 0 fNum fNum).overall_drift_score = 0 ∧
    (detect_drift env0 0 fNum fNum).drift_detected = false :=
  C6_self_drift env0 0 fNum le_rfl

/-- Witness for C10 at a concrete environment and concrete frames. -/
theorem C10_report_shape_witness :
    (detect_drift env0 0 fRef fTgt).column_drift.map Prod.fst = commonColumns fRef fTgt ∧
    (commonColumns fRef fTgt).Nodup ∧
    (detect_drift env0 0 fRef fTgt).test_results.totalTested = (commonColumns fRef fTgt).length ∧
    (detect_drift env0 0 fRef fTgt).test_results.columnsWithDrift ≤
      (detect_drift env0 0 fRef fTgt).test_results.totalTested :=
  C10_report_shape env0 0 fRef fTgt rfl

end DQ

namespace DQ

/-- C3 counterexample: with reference column [A] and target column
[A, B], the table handed to the chi square routine contains an expected
(reference) count equal to 0 — the claimed guard does not exist. -/
theorem C3_no_guard_counterexample :
    ¬ (∀ row ∈ chiMerged [Value.str "A"] [Value.str "A", Value.str "B"], 0 < row.1) := by
  decide

/-- C3 amended: the chi square test applies no guard at all — a zero
expected count reaches the library exactly when the target column holds
a non-missing value absent from the reference column. -/
theorem C3_zero_expected_iff (refVals targetVals : List Value) :
    (∃ row ∈ chiMerged refVals targetVals, row.1 = 0) ↔
    (∃ v ∈ dropMissing targetVals, v ∉ dropMissing refVals) := by
  unfold chiMerged outerMerge
  constructor
  · rintro ⟨row, hrow, hz⟩
    rcases List.mem_append.mp hrow with h1 | h2
    · rcases List.mem_map.mp h1 with ⟨p, hp, rfl⟩
      have hpos := valueCounts_count_pos refVals hp
      simp only at hz
      omega
    · rcases List.mem_map.mp h2 with ⟨p, hp, rfl⟩
      rcases List.mem_filter.mp hp with ⟨hpT, hlook⟩
      refine ⟨p.1, ?_, ?_⟩
      · have hk : p.1 ∈ (valueCounts targetVals).map Prod.fst := List.mem_map.mpr ⟨p, hpT, rfl⟩
        rw [valueCounts_keys] at hk
        exact List.mem_dedup.mp hk
      · have hnone : (valueCounts refVals).lookup p.1 = none := by simpa using hlook
        have hnk := (lookup_eq_none_iff _ _).mp hnone
        rw [valueCounts_keys] at hnk
        exact fun hmem => hnk (List.mem_dedup.mpr hmem)
  · rintro ⟨v, hvT, hvR⟩
    have hpT : (v, (dropMissing targetVals).count v) ∈ valueCounts targetVals :=
      List.mem_map.mpr ⟨v, List.mem_dedup.mpr hvT, rfl⟩
    have hnone : (valueCounts refVals).lookup v = none := by
      refine (lookup_eq_none_iff _ _).mpr ?_
      rw [valueCounts_keys]
      exact fun hmem => hvR (List.mem_dedup.mp hmem)
    refine ⟨(0, (dropMissing targetVals).count v), List.mem_append.mpr (Or.inr ?_), rfl⟩
    exact List.mem_map.mpr
      ⟨(v, (dropMissing targetVals).count v), List.mem_filter.mpr ⟨hpT, by simpa using hnone⟩, rfl⟩

/-- C7: check_duplicates reports unique plus duplicate rows equal to the
total row count, the unique count being the number of distinct full
rows, and the duplicate percentage rounded to two decimals, 0 for an
empty frame. -/
theorem C7_duplicates (df : Frame) :
    ∃ u d pct, check_duplicates none df = DupReport.ok df.nrows u d pct ∧
      u = df.rows.dedup.length ∧ u + d = df.nrows ∧
      pct = (if 0 < df.nrows then pyRound2 ((d : ℚ) / (df.nrows : ℚ) * 100) else 0) := by
  refine ⟨df.rows.dedup.length, df.nrows - df.rows.dedup.length, _, rfl, rfl, ?_, rfl⟩
  have h1 : df.rows.dedup.length ≤ df.rows.length := (List.dedup_sublist _).length_le
  have h2 : df.rows.length = df.nrows := by simp [Frame.rows]
  omega

/-- C9 counterexample: on a failing computation the quality checker
returns the bare empty mapping, identical for two different failure
messages — the degraded result carries no explanatory note. -/
theorem C9_no_note_counterexample :
    check_missing_values (some "boom") fNum = MissingReport.empty ∧
    check_missing_values (some "a different failure") fNum
      = check_missing_values (some "boom") fNum :=
  ⟨rfl, rfl⟩

/-- C9 amended: every quality engine operation catches a computation
failure at its own boundary and returns its empty degraded mapping (the
explanation is only logged, never embedded in the result), whatever the
failure message. -/
theorem C9_degraded_empty (df : Frame) (e : String) (sq : ℚ → ℚ) :
    check_missing_values (some e) df = MissingReport.empty ∧
    check_duplicates (some e) df = DupReport.empty ∧
    detect_outliers (some e) df = [] ∧
    check_data_types (some e) df = [] ∧
    get_statistics sq (some e) df = StatsReport.empty :=
  ⟨rfl, rfl, rfl, rfl, rfl⟩

end DQ

namespace DQ

/-- C5: the PSI of the source agrees with the formula of the
specification (10 bins from the reference min and max with infinite
outer edges, normalized fractions, 0.0001 smoothing, the PSI sum), and
the psi score never affects the has_drift flag or the drift score of a
column: changing the logarithm, the only ingredient of the PSI not used
elsewhere, leaves both unchanged. -/
theorem C5_psi (lg : ℚ → ℚ) (ref_data target_data : List ℚ) (env : DriftEnv)
    (lg2 : ℚ → ℚ) (t : ℚ) (refVals targetVals : List Value) :
    calculate_psi lg ref_data target_data = psiSpec lg ref_data target_data ∧
    (ks_test { env with log := lg2 } t refVals targetVals).has_drift
      = (ks_test env t refVals targetVals).has_drift ∧
    (ks_test { env with log := lg2 } t refVals targetVals).drift_score
      = (ks_test env t refVals targetVals).drift_score := by
  refine ⟨?_, ?_⟩
  · unfold calculate_psi psiSpec specBinFrac breakpoints
    simp only [List.range_succ, List.range_zero, List.nil_append, List.map_append, List.map_cons,
      List.map_nil, List.cons_append, List.append_nil]
    simp only [histCounts, BP.atOrAbove, BP.strictlyBelow, BP.atOrBelow]
    simp only [Finset.sum_range_succ, Finset.sum_range_zero]
    norm_num
    ring_nf
  · cases hE : env.ksExn (toNums refVals) (toNums targetVals) with
    | some e => constructor <;> simp [ks_test, hE]
    | none =>
      constructor <;> simp [ks_test, hE, ColResult.has_drift, ColResult.drift_score]

end DQ

namespace DQ

lemma sorted_getD_le {l : List ℚ} (hs : List.Sorted (· ≤ ·) l) {i j : ℕ} (d1 d2 : ℚ)
    (hij : i ≤ j) (hj : j < l.length) : l.getD i d1 ≤ l.getD j d2 := by
  rw [List.getD_eq_getElem l d1 (lt_of_le_of_lt hij hj), List.getD_eq_getElem l d2 hj]
  have h := hs.rel_get_of_le (a := ⟨i, lt_of_le_of_lt hij hj⟩) (b := ⟨j, hj⟩)
    (by simpa using hij)
  simpa using h

lemma quantileSorted_mono (l : List ℚ) (hs : List.Sorted (· ≤ ·) l) (hl : l ≠ [])
    {p q : ℚ} (hp0 : 0 ≤ p) (hpq : p ≤ q) (hq1 : q ≤ 1) :
    quantileSorted l p ≤ quantileSorted l q := by
  have hn : 1 ≤ l.length := List.length_pos.mpr hl
  have hN0 : (0:ℚ) ≤ (l.length : ℚ) - 1 := by
    have h1 : (1:ℚ) ≤ (l.length : ℚ) := by exact_mod_cast hn
    linarith
  show l.getD (⌊p * ((l.length : ℚ) - 1)⌋).toNat 0
      + (p * ((l.length : ℚ) - 1) - ((⌊p * ((l.length : ℚ) - 1)⌋).toNat : ℚ))
        * (l.getD ((⌊p * ((l.length : ℚ) - 1)⌋).toNat + 1)
            (l.getD (⌊p * ((l.length : ℚ) - 1)⌋).toNat 0)
          - l.getD (⌊p * ((l.length : ℚ) - 1)⌋).toNat 0)
    ≤ l.getD (⌊q * ((l.length : ℚ) - 1)⌋).toNat 0
      + (q * ((l.length : ℚ) - 1) - ((⌊q * ((l.length : ℚ) - 1)⌋).toNat : ℚ))
        * (l.getD ((⌊q * ((l.length : ℚ) - 1)⌋).toNat + 1)
            (l.getD (⌊q * ((l.length : ℚ) - 1)⌋).toNat 0)
          - l.getD (⌊q * ((l.length : ℚ) - 1)⌋).toNat 0)
  set P := p * ((l.length : ℚ) - 1) with hPdef
  set Q := q * ((l.length : ℚ) - 1) with hQdef
  have hP0 : 0 ≤ P := mul_nonneg hp0 hN0
  have hQ0 : 0 ≤ Q := mul_nonneg (le_trans hp0 hpq) hN0
  have hPQ : P ≤ Q := mul_le_mul_of_nonneg_right hpq hN0
  have hQN : Q ≤ (l.length : ℚ) - 1 := by
    have h1 : Q ≤ 1 * ((l.length : ℚ) - 1) := mul_le_mul_of_nonneg_right hq1 hN0
    linarith
  set i := (⌊P⌋).toNat with hidef
  set j := (⌊Q⌋).toNat with hjdef
  have hiZ : ((i : ℤ)) = ⌊P⌋ := Int.toNat_of_nonneg (Int.floor_nonneg.mpr hP0)
  have hjZ : ((j : ℤ)) = ⌊Q⌋ := Int.toNat_of_nonneg (Int.floor_nonneg.mpr hQ0)
  have hiq : (i : ℚ) = ((⌊P⌋ : ℤ) : ℚ) := by exact_mod_cast congrArg Int.cast hiZ
  have hjq : (j : ℚ) = ((⌊Q⌋ : ℤ) : ℚ) := by exact_mod_cast congrArg Int.cast hjZ
  have hiP : (i : ℚ) ≤ P := by rw [hiq]; exact Int.floor_le P
  have hjQ : (j : ℚ) ≤ Q := by rw [hjq]; exact Int.floor_le Q
  have hPi : P < (i : ℚ) + 1 := by rw [hiq]; exact Int.lt_floor_add_one P
  have hQj : Q < (j : ℚ) + 1 := by rw [hjq]; exact Int.lt_floor_add_one Q
  have hij : i ≤ j := Int.toNat_le_toNat (Int.floor_le_floor hPQ)
  have hjn : j < l.length := by
    have h2 : ⌊Q⌋ ≤ (l.length : ℤ) - 1 := by
      have h3 : ((l.length : ℤ) : ℚ) - 1 = (((l.length : ℤ) - 1 : ℤ) : ℚ) := by push_cast; ring
      have h4 : ⌊Q⌋ ≤ ⌊(((l.length : ℤ) - 1 : ℤ) : ℚ)⌋ := by
        refine Int.floor_le_floor ?_
        rw [← h3]
        push_cast
        exact hQN
      rwa [Int.floor_intCast] at h4
    omega
  have hA1B1 : l.getD i 0 ≤ l.getD (i + 1) (l.getD i 0) := by
    by_cases hi1 : i + 1 < l.length
    · exact sorted_getD_le hs 0 (l.getD i 0) (Nat.le_succ i) hi1
    · rw [List.getD_eq_default l (l.getD i 0) (show l.length ≤ i + 1 by omega)]
  have hA2B2 : l.getD j 0 ≤ l.getD (j + 1) (l.getD j 0) := by
    by_cases hj1 : j + 1 < l.length
    · exact sorted_getD_le hs 0 (l.getD j 0) (Nat.le_succ j) hj1
    · rw [List.getD_eq_default l (l.getD j 0) (show l.length ≤ j + 1 by omega)]
  rcases Nat.lt_or_ge i j with hlt | hge
  · have hi1j : i + 1 ≤ j := hlt
    have hv1 : l.getD i 0 + (P - (i : ℚ)) * (l.getD (i + 1) (l.getD i 0) - l.getD i 0)
        ≤ l.getD (i + 1) (l.getD i 0) := by
      have hprod : 0 ≤ (1 - (P - (i : ℚ))) * (l.getD (i + 1) (l.getD i 0) - l.getD i 0) :=
        mul_nonneg (by linarith) (sub_nonneg.mpr hA1B1)
      nlinarith [hprod]
    have hmid : l.getD (i + 1) (l.getD i 0) ≤ l.getD j 0 :=
      sorted_getD_le hs (l.getD i 0) 0 hi1j hjn
    have hv2 : l.getD j 0
        ≤ l.getD j 0 + (Q - (j : ℚ)) * (l.getD (j + 1) (l.getD j 0) - l.getD j 0) := by
      have hprod : 0 ≤ (Q - (j : ℚ)) * (l.getD (j + 1) (l.getD j 0) - l.getD j 0) :=
        mul_nonneg (by linarith) (sub_nonneg.mpr hA2B2)
      linarith
    linarith
  · have hEq : i = j := le_antisymm hij hge
    rw [hEq]
    have hprod : (P - (j : ℚ)) * (l.getD (j + 1) (l.getD j 0) - l.getD j 0)
        ≤ (Q - (j : ℚ)) * (l.getD (j + 1) (l.getD j 0) - l.getD j 0) :=
      mul_le_mul_of_nonneg_right (by linarith) (sub_nonneg.mpr hA2B2)
    linarith

lemma quantile_mono (d : List ℚ) (hd : d ≠ []) {p q : ℚ}
    (hp0 : 0 ≤ p) (hpq : p ≤ q) (hq1 : q ≤ 1) : quantile d p ≤ quantile d q := by
  have hs : List.Sorted (· ≤ ·) (d.insertionSort (· ≤ ·)) :=
    List.sorted_insertionSort (· ≤ ·) d
  have hne : d.insertionSort (· ≤ ·) ≠ [] := by
    intro h
    exact hd (List.Perm.eq_nil ((List.perm_insertionSort (· ≤ ·) d).symm.trans
      (h ▸ List.Perm.refl _)))
  exact quantileSorted_mono _ hs hne hp0 hpq hq1

/-- C8: for every numeric column with at least one non-missing value the
outlier report contains its IQR entry, whose bounds are Q1 minus 1.5 IQR
and Q3 plus 1.5 IQR with lower at most upper, whose count is exactly the
number of non-missing values strictly outside the bounds, and whose
percentage is relative to the non-missing values; numeric columns with
no non-missing value are skipped and non-numeric columns never appear. -/
theorem C8_outliers (df : Frame) :
    (∀ name col, (name, col) ∈ df.cols → col.ctype = ColType.numeric →
      toNums col.values ≠ [] →
      (name, outlierEntry (toNums col.values)) ∈ detect_outliers none df) ∧
    (∀ d : List ℚ, d ≠ [] →
      (outlierEntry d).lower_bound
          = quantile d (1 / 4) - 3 / 2 * (quantile d (3 / 4) - quantile d (1 / 4)) ∧
      (outlierEntry d).upper_bound
          = quantile d (3 / 4) + 3 / 2 * (quantile d (3 / 4) - quantile d (1 / 4)) ∧
      (outlierEntry d).lower_bound ≤ (outlierEntry d).upper_bound ∧
      (outlierEntry d).count = (d.filter (fun x =>
          x < (outlierEntry d).lower_bound ∨ x > (outlierEntry d).upper_bound)).length ∧
      (outlierEntry d).percentage
          = pyRound2 (((outlierEntry d).count : ℚ) / (d.length : ℚ) * 100)) ∧
    (∀ name info, (name, info) ∈ detect_outliers none df →
      ∃ col, (name, col) ∈ df.cols ∧ col.ctype = ColType.numeric ∧ toNums col.values ≠ []) := by
  refine ⟨?_, ?_, ?_⟩
  · intro name col hmem hcty hne
    simp only [detect_outliers]
    refine List.mem_filterMap.mpr ⟨(name, col), List.mem_filter.mpr ⟨hmem, by simp [hcty]⟩, ?_⟩
    have hpos : 0 < (toNums col.values).length := List.length_pos.mpr hne
    simp only [hpos, if_pos]
  · intro d hd
    have hq13 : quantile d (1 / 4) ≤ quantile d (3 / 4) :=
      quantile_mono d hd (by norm_num) (by norm_num) (by norm_num)
    refine ⟨rfl, rfl, ?_, rfl, rfl⟩
    show quantile d (1 / 4) - 3 / 2 * (quantile d (3 / 4) - quantile d (1 / 4))
      ≤ quantile d (3 / 4) + 3 / 2 * (quantile d (3 / 4) - quantile d (1 / 4))
    linarith
  · intro name info hmem
    simp only [detect_outliers] at hmem
    rcases List.mem_filterMap.mp hmem with ⟨c, hcf, hfc⟩
    rcases List.mem_filter.mp hcf with ⟨hcols, hcty⟩
    by_cases hlen : 0 < (toNums c.2.values).length
    · rw [if_pos hlen] at hfc
      have hpair : c.1 = name ∧ outlierEntry (toNums c.2.values) = info := by
        have := Option.some.inj hfc
        exact ⟨congrArg Prod.fst this, congrArg Prod.snd this⟩
      refine ⟨c.2, ?_, by simpa using hcty, List.length_pos.mp hlen⟩
      rw [← hpair.1]
      exact hcols
    · rw [if_neg hlen] at hfc
      cases hfc

end DQ

namespace DQ

/-- Witness for C8 at the outlier scenario frame: the numeric column x
gets its IQR entry and its bounds are ordered. -/
theorem C8_outliers_witness :
    ("x", outlierEntry (toNums [Value.num 1, Value.num 2, Value.num 3,
        Value.num 4, Value.num 5, Value.num 100])) ∈ detect_outliers none fOut ∧
    (outlierEntry (toNums [Value.num 1, Value.num 2, Value.num 3,
        Value.num 4, Value.num 5, Value.num 100])).lower_bound
      ≤ (outlierEntry (toNums [Value.num 1, Value.num 2, Value.num 3,
        Value.num 4, Value.num 5, Value.num 100])).upper_bound := by
  refine ⟨(C8_outliers fOut).1 "x"
      ⟨ColType.numeric, [Value.num 1, Value.num 2, Value.num 3,
        Value.num 4, Value.num 5, Value.num 100]⟩ ?_ rfl ?_,
    ((C8_outliers fOut).2.1 (toNums [Value.num 1, Value.num 2, Value.num 3,
        Value.num 4, Value.num 5, Value.num 100]) ?_).2.2.1⟩
  · simp [fOut]
  · decide
  · decide

end DQ
